import Mathlib

/-!
Shallow embedding of the campaign-execution subsystem of the promotional
campaign bot (src/main.py, src/database/methods.py, src/database/db.py),
together with theorems settling the specification claims about it.

Conventions of the embedding:
* Database tables are Lean lists of row structures; SQL queries become list
  filters/folds over those lists.  A table enumerated `ORDER BY id` on the
  SERIAL primary key is represented by the list in ascending-id order (the
  theorems carry an explicit `Pairwise` sortedness hypothesis).
* Timestamps are `Int` (comparisons are all the code does with them).
* The message transport is a pure oracle: a function giving the outcome of
  the k-th send call.  `async` control flow becomes ordinary recursion;
  `await asyncio.sleep` calls are recorded as trace events where a claim
  refers to them, and dropped otherwise.
* Exceptions of the transport are values of `SendOutcome`; `try/except`
  becomes a `match` on that value, mirroring the handler arms of the source.
-/

namespace Bot

/-- Row of the `campaigns` table (db.py lines 126-136).  The `type` and
`content` columns are not consulted by the store operations verified here
and are omitted; all columns the claims mention are present. -/
structure Campaign where
  id : Nat
  isCompleted : Bool
  scheduledFor : Option Int
  sentCount : Nat
  failedCount : Nat
  completedAt : Option Int
  createdAt : Int
deriving Repr, DecidableEq

/-- Embedding of `mark_campaign_completed` (methods.py lines 186-192):
`UPDATE campaigns SET is_completed = TRUE, completed_at = NOW(),
sent_count = $1, failed_count = $2 WHERE id = $3`.  The update is
unconditional on `is_completed`; `now` is the value of `NOW()` at the call. -/
def markCampaignCompleted (store : List Campaign) (cid : Nat) (sent failed : Nat)
    (now : Int) : List Campaign :=
  store.map fun c =>
    if c.id = cid then
      { c with isCompleted := true, completedAt := some now,
               sentCount := sent, failedCount := failed }
    else c

/-- Eligibility predicate of `get_pending_campaigns` (methods.py lines 177-183):
`is_completed = FALSE AND (scheduled_for IS NULL OR scheduled_for <= NOW())`. -/
def pendingFilter (now : Int) (c : Campaign) : Bool :=
  !c.isCompleted &&
    (match c.scheduledFor with
     | none => true
     | some t => t ≤ now)

/-- Embedding of `get_pending_campaigns` (methods.py lines 177-183); the
table list is kept in `created_at` order, matching `ORDER BY created_at`. -/
def getPendingCampaigns (campaigns : List Campaign) (now : Int) : List Campaign :=
  campaigns.filter (pendingFilter now)

/-- Notification-path dispatch decision of `scheduler` (main.py lines 122-137):
a popped campaign id is executed iff the campaign row exists, is not
completed, and is not scheduled strictly in the future relative to `now`
(`if scheduled_for and scheduled_for > config.get_now()...: continue`). -/
def notificationPathExecutes (c : Option Campaign) (now : Int) : Bool :=
  match c with
  | none => false
  | some c =>
    if c.isCompleted then false
    else
      match c.scheduledFor with
      | some t => if now < t then false else true
      | none => true

/-- Queue-drain loop of `scheduler` (main.py lines 122-140): each queued id is
inspected exactly once (`get_nowait`) and executed or skipped; a skipped id is
never requeued.  Returns the ids that get executed, in queue order.  `getC` is
the `get_campaign` lookup; one `now` is used for the whole drain. -/
def drainNotifications (getC : Nat → Option Campaign) (now : Int)
    (queue : List Nat) : List Nat :=
  queue.filter fun cid => notificationPathExecutes (getC cid) now

/-- Helper: `markCampaignCompleted` is an overwrite, so composing two calls
with the same counts collapses to the later call. -/
theorem markCampaignCompleted_comp (store : List Campaign) (cid : Nat)
    (sent failed : Nat) (t1 t2 : Int) :
    markCampaignCompleted (markCampaignCompleted store cid sent failed t1)
      cid sent failed t2 = markCampaignCompleted store cid sent failed t2 := by
  unfold markCampaignCompleted
  rw [List.map_map]
  refine List.map_congr_left fun c _ => ?_
  by_cases h : c.id = cid <;> simp [h]

/-- Claim C1 (counterexample): completing a campaign twice is not a no-op
after the first write.  The `UPDATE` in `mark_campaign_completed` has no
`WHERE is_completed = false` guard, so the second call overwrites
`completed_at` with the later `NOW()`: completing campaign 1 at time 10 and
again at time 20 yields a different store state than the single call. -/
theorem markCampaignCompleted_not_idempotent :
    markCampaignCompleted
        (markCampaignCompleted
          [{ id := 1, isCompleted := false, scheduledFor := none,
             sentCount := 0, failedCount := 0, completedAt := none,
             createdAt := 0 }] 1 5 2 10)
        1 5 2 20
      ≠ markCampaignCompleted
        [{ id := 1, isCompleted := false, scheduledFor := none,
           sentCount := 0, failedCount := 0, completedAt := none,
           createdAt := 0 }] 1 5 2 10 := by
  decide

/-- Claim C1 (amended): the completion write is an unconditional overwrite,
not an increment, so calling `mark_campaign_completed` twice with the same
counts leaves the store in the state of a single call made at the second
call's time: `sent_count` and `failed_count` equal the single-call values,
and only `completed_at` reflects the later clock. -/
theorem markCampaignCompleted_overwrite (store : List Campaign) (cid : Nat)
    (sent failed : Nat) (t1 t2 : Int) :
    markCampaignCompleted (markCampaignCompleted store cid sent failed t1)
        cid sent failed t2 = markCampaignCompleted store cid sent failed t2 ∧
    ∀ c ∈ markCampaignCompleted (markCampaignCompleted store cid sent failed t1)
        cid sent failed t2,
      c.id = cid → c.sentCount = sent ∧ c.failedCount = failed := by
  refine ⟨markCampaignCompleted_comp store cid sent failed t1 t2, ?_⟩
  intro c hc hid
  rw [markCampaignCompleted_comp store cid sent failed t1 t2,
    markCampaignCompleted, List.mem_map] at hc
  obtain ⟨a, _, ha⟩ := hc
  by_cases h : a.id = cid
  · simp [h] at ha
    cases ha
    exact ⟨rfl, rfl⟩
  · simp [h] at ha
    cases ha
    exact absurd hid h

/-- Witness for the amended claim C1 at a concrete store. -/
theorem markCampaignCompleted_overwrite_witness :
    markCampaignCompleted
        (markCampaignCompleted
          [{ id := 1, isCompleted := false, scheduledFor := none,
             sentCount := 0, failedCount := 0, completedAt := none,
             createdAt := 0 }] 1 5 2 10) 1 5 2 20
      = markCampaignCompleted
        [{ id := 1, isCompleted := false, scheduledFor := none,
           sentCount := 0, failedCount := 0, completedAt := none,
           createdAt := 0 }] 1 5 2 20 := by
  exact (markCampaignCompleted_overwrite
    [{ id := 1, isCompleted := false, scheduledFor := none,
       sentCount := 0, failedCount := 0, completedAt := none,
       createdAt := 0 }] 1 5 2 10 20).1

/-- Claim C7: a campaign scheduled strictly in the future is never executed by
the notification path (the drain loop skips it without requeueing it), and the
fallback eligibility query admits exactly the campaigns with
`is_completed = false` and `scheduled_for` null or at most `now` — so the
campaign is admitted by the first fallback scan whose `now` reaches the
scheduled time. -/
theorem scheduler_defers_future_scheduled (getC : Nat → Option Campaign)
    (now : Int) (queue : List Nat) (cid : Nat) (c : Campaign) (t : Int)
    (hget : getC cid = some c) (hsched : c.scheduledFor = some t)
    (hfuture : now < t) :
    cid ∉ drainNotifications getC now queue ∧
    pendingFilter now c = false ∧
    (∀ c2 : Campaign, ∀ now2 : Int,
      (pendingFilter now2 c2 = true ↔
        c2.isCompleted = false ∧
          (c2.scheduledFor = none ∨ ∃ t2, c2.scheduledFor = some t2 ∧ t2 ≤ now2))) := by
  refine ⟨?_, ?_, ?_⟩
  · intro hmem
    simp only [drainNotifications] at hmem
    have h2 := (List.mem_filter.mp hmem).2
    rw [hget] at h2
    simp [notificationPathExecutes, hsched, hfuture] at h2
  · have ht : decide (t ≤ now) = false := decide_eq_false (not_le.mpr hfuture)
    simp [pendingFilter, hsched, ht]
  · intro c2 now2
    cases hs : c2.scheduledFor with
    | none => simp [pendingFilter, hs]
    | some t2 => simp [pendingFilter, hs]

/-- Witness for claim C7: campaign 7 scheduled for time 100 is skipped by the
notification drain at time 50 and rejected by the fallback eligibility filter. -/
theorem scheduler_defers_future_scheduled_witness :
    (7 ∉ drainNotifications
        (fun cid => if cid = 7 then
          some { id := 7, isCompleted := false, scheduledFor := some 100,
                 sentCount := 0, failedCount := 0, completedAt := none,
                 createdAt := 0 }
          else none) 50 [7, 7, 3]) ∧
    pendingFilter 50
        { id := 7, isCompleted := false, scheduledFor := some 100,
          sentCount := 0, failedCount := 0, completedAt := none,
          createdAt := 0 } = false := by
  have h := scheduler_defers_future_scheduled
    (fun cid => if cid = 7 then
      some { id := 7, isCompleted := false, scheduledFor := some 100,
             sentCount := 0, failedCount := 0, completedAt := none,
             createdAt := 0 }
      else none) 50 [7, 7, 3] 7
    { id := 7, isCompleted := false, scheduledFor := some 100,
      sentCount := 0, failedCount := 0, completedAt := none, createdAt := 0 }
    100 rfl rfl (by decide)
  exact ⟨h.1, h.2.1⟩

/-- Outcome of one transport send call, mirroring the exception classes the
`try` block of `send_message_with_retry` (main.py lines 42-63) distinguishes:
normal return, `TelegramRetryAfter`, `TelegramForbiddenError`, and any other
`Exception`. -/
inductive SendOutcome where
  | success
  | retryAfter (secs : Nat)
  | forbidden
  | otherError
deriving Repr, DecidableEq

/-- Loop body of `send_message_with_retry` (main.py lines 42-64), over an
oracle giving the outcome of the k-th send call.  `calls` counts the calls
made so far; since every loop iteration makes exactly one send call, `calls`
equals the Python loop variable `attempt`, and `remaining` is the number of
loop iterations left out of `range(max_retries)`.  The sleeps
(`e.retry_after + 1` and `0.5 * 2^attempt`) do not affect control flow and
are dropped.  Returns the Python return value paired with the total number
of send calls made. -/
def sendLoop (outcome : Nat → SendOutcome) (maxRetries : Nat) :
    Nat → Nat → Bool × Nat
  | 0, calls => (false, calls)
  | remaining + 1, calls =>
    match outcome calls with
    | .success => (true, calls + 1)
    | .retryAfter _ => sendLoop outcome maxRetries remaining (calls + 1)
    | .forbidden => (false, calls + 1)
    | .otherError =>
      if calls < maxRetries - 1 then sendLoop outcome maxRetries remaining (calls + 1)
      else (false, calls + 1)

/-- Embedding of `send_message_with_retry` (main.py lines 38-64): run the
attempt loop for `max_retries` iterations starting with zero calls made. -/
def sendMessageWithRetry (outcome : Nat → SendOutcome) (maxRetries : Nat) :
    Bool × Nat :=
  sendLoop outcome maxRetries maxRetries 0

/-- Helper for claim C5: inside the loop, a `forbidden` outcome at the
current call returns `false` at once, after calls made before plus one. -/
theorem sendLoop_forbidden (outcome : Nat → SendOutcome) (maxRetries : Nat)
    (remaining calls : Nat) (h : outcome calls = .forbidden) :
    sendLoop outcome maxRetries (remaining + 1) calls = (false, calls + 1) := by
  simp [sendLoop, h]

/-- Helper for claims C5/C6: the loop makes at most `remaining` further calls. -/
theorem sendLoop_calls_le (outcome : Nat → SendOutcome) (maxRetries : Nat) :
    ∀ remaining calls, (sendLoop outcome maxRetries remaining calls).2 ≤ calls + remaining := by
  intro remaining
  induction remaining with
  | zero => intro calls; simp [sendLoop]
  | succ n ih =>
    intro calls
    rw [sendLoop]
    cases outcome calls with
    | success => simp
    | retryAfter s =>
      simp only
      have := ih (calls + 1)
      omega
    | forbidden => simp
    | otherError =>
      simp only
      by_cases hc : calls < maxRetries - 1
      · rw [if_pos hc]
        have := ih (calls + 1)
        omega
      · rw [if_neg hc]
        simp

/-- True of the two outcome classes that keep the retry loop going
(rate-limit and generic transient error); false of the terminal ones. -/
def SendOutcome.isTransient : SendOutcome → Bool
  | .retryAfter _ => true
  | .otherError => true
  | .success => false
  | .forbidden => false

/-- Helper: if the first k calls are transient and the k-th call (within the
remaining budget) is `forbidden`, the loop stops right there with `false`. -/
theorem sendLoop_reach_forbidden (outcome : Nat → SendOutcome) (maxRetries : Nat) :
    ∀ k remaining calls, calls + remaining = maxRetries → k < remaining →
      (∀ j, j < k → (outcome (calls + j)).isTransient = true) →
      outcome (calls + k) = .forbidden →
      sendLoop outcome maxRetries remaining calls = (false, calls + k + 1) := by
  intro k
  induction k with
  | zero =>
    intro remaining calls _ hlt _ hfb
    obtain ⟨r, rfl⟩ : ∃ r, remaining = r + 1 := ⟨remaining - 1, by omega⟩
    rw [Nat.add_zero] at hfb
    rw [sendLoop_forbidden outcome maxRetries r calls hfb]
  | succ n ih =>
    intro remaining calls hsum hlt hprev hfb
    obtain ⟨r, rfl⟩ : ∃ r, remaining = r + 1 := ⟨remaining - 1, by omega⟩
    have h0 : (outcome calls).isTransient = true := by
      have := hprev 0 (Nat.succ_pos n)
      rwa [Nat.add_zero] at this
    have hrec : sendLoop outcome maxRetries r (calls + 1) = (false, calls + 1 + n + 1) := by
      refine ih r (calls + 1) (by omega) (by omega) ?_ ?_
      · intro j hj
        have := hprev (j + 1) (by omega)
        rwa [show calls + (j + 1) = calls + 1 + j by omega] at this
      · rwa [show calls + 1 + n = calls + (n + 1) by omega]
    rw [sendLoop]
    cases ho : outcome calls with
    | success => rw [ho, SendOutcome.isTransient] at h0; exact absurd h0 (by simp)
    | forbidden => rw [ho, SendOutcome.isTransient] at h0; exact absurd h0 (by simp)
    | retryAfter s =>
      simp only
      rw [hrec]
      congr 1
      omega
    | otherError =>
      simp only
      rw [if_pos (by omega)]
      rw [hrec]
      congr 1
      omega

/-- Claim C5: the delivery primitive always returns a value (every arm of the
source's `try/except` yields a `return` or a retry, so the embedding is a
total function into `Bool × Nat`), and a provider-signaled recipient-blocked
condition (`TelegramForbiddenError`) arising at the k-th call, after k
non-terminal calls, makes it return `false` (SoftFailed) immediately:
exactly k+1 send calls happen in total, so no further delivery attempt
follows the blocked signal within that invocation. -/
theorem sendMessageWithRetry_forbidden_terminal (outcome : Nat → SendOutcome)
    (maxRetries k : Nat) (hk : k < maxRetries)
    (hprev : ∀ j, j < k → (outcome j).isTransient = true)
    (hfb : outcome k = .forbidden) :
    sendMessageWithRetry outcome maxRetries = (false, k + 1) := by
  have := sendLoop_reach_forbidden outcome maxRetries k maxRetries 0
    (by omega) hk (by simpa using hprev) (by simpa using hfb)
  simpa [sendMessageWithRetry] using this

/-- Witness for claim C5: with a rate-limit on call 0, a transient error on
call 1 and a blocked signal on call 2, the primitive (budget 3) returns
SoftFailed after exactly 3 calls. -/
theorem sendMessageWithRetry_forbidden_terminal_witness :
    sendMessageWithRetry
      (fun j => if j = 0 then .retryAfter 4 else
        if j = 1 then .otherError else .forbidden) 3 = (false, 3) := by
  have := sendMessageWithRetry_forbidden_terminal
    (fun j => if j = 0 then .retryAfter 4 else
      if j = 1 then .otherError else .forbidden) 3 2
    (by omega)
    (by
      intro j hj
      interval_cases j <;> decide)
    (by decide)
  simpa using this

/-- Number of calls among the first `calls` whose outcome is not a
rate-limit (`TelegramRetryAfter`) signal. -/
def nonRateLimitedCalls (outcome : Nat → SendOutcome) (calls : Nat) : Nat :=
  ((List.range calls).filter fun j =>
    match outcome j with
    | .retryAfter _ => false
    | _ => true).length

/-- Helper: with at least one loop iteration left, at least one further send
call is made. -/
theorem sendLoop_calls_ge (outcome : Nat → SendOutcome) (maxRetries : Nat) :
    ∀ remaining calls, 1 ≤ remaining →
      calls + 1 ≤ (sendLoop outcome maxRetries remaining calls).2 := by
  intro remaining
  induction remaining with
  | zero => intro calls h; omega
  | succ n ih =>
    intro calls _
    rw [sendLoop]
    cases outcome calls with
    | success => simp
    | forbidden => simp
    | retryAfter s =>
      simp only
      rcases Nat.eq_zero_or_pos n with h0 | h1
      · subst h0; simp [sendLoop]
      · have := ih (calls + 1) h1
        omega
    | otherError =>
      simp only
      by_cases hc : calls < maxRetries - 1
      · rw [if_pos hc]
        rcases Nat.eq_zero_or_pos n with h0 | h1
        · subst h0; simp [sendLoop]
        · have := ih (calls + 1) h1
          omega
      · rw [if_neg hc]

/-- Claim C6 (counterexample): a rate-limited attempt is counted against the
retry budget.  With every call answered by `TelegramRetryAfter`, the loop
`for attempt in range(3)` ends after exactly 3 calls — all rate-limited —
and returns `False`: zero non-rate-limited attempts were performed, not the
full bound of 3 that the claim promises regardless of rate-limit count. -/
theorem sendRetry_rateLimit_counts_budget_cex :
    sendMessageWithRetry (fun _ => SendOutcome.retryAfter 5) 3 = (false, 3) ∧
    nonRateLimitedCalls (fun _ => SendOutcome.retryAfter 5)
        (sendMessageWithRetry (fun _ => SendOutcome.retryAfter 5) 3).2 = 0 := by
  decide

/-- Claim C6 (amended): on a provider rate-limit signal the primitive sleeps
the provider-specified duration and then retries (a further send call is
made whenever budget remains), but the rate-limited attempt consumes an
iteration of the fixed `range(max_retries)` budget: the total number of send
calls, rate-limited ones included, never exceeds `max_retries`. -/
theorem sendRetry_rateLimit_consumes_budget :
    (∀ outcome : Nat → SendOutcome, ∀ maxRetries : Nat,
      (sendMessageWithRetry outcome maxRetries).2 ≤ maxRetries) ∧
    (∀ outcome : Nat → SendOutcome, ∀ maxRetries s : Nat, 2 ≤ maxRetries →
      outcome 0 = .retryAfter s →
      2 ≤ (sendMessageWithRetry outcome maxRetries).2) := by
  constructor
  · intro outcome maxRetries
    have := sendLoop_calls_le outcome maxRetries maxRetries 0
    simpa [sendMessageWithRetry] using this
  · intro outcome maxRetries s hm h0
    obtain ⟨r, rfl⟩ : ∃ r, maxRetries = r + 2 := ⟨maxRetries - 2, by omega⟩
    rw [sendMessageWithRetry, sendLoop, h0]
    simp only
    have := sendLoop_calls_ge outcome (r + 2) (r + 1) (0 + 1) (by omega)
    omega

/-- Witness for the amended claim C6: with every call rate-limited and budget
5, at most 5 calls are made, and at least a second call follows the initial
rate-limit. -/
theorem sendRetry_rateLimit_consumes_budget_witness :
    (sendMessageWithRetry (fun _ => SendOutcome.retryAfter 1) 5).2 ≤ 5 ∧
    2 ≤ (sendMessageWithRetry (fun _ => SendOutcome.retryAfter 1) 5).2 :=
  ⟨sendRetry_rateLimit_consumes_budget.1 (fun _ => SendOutcome.retryAfter 1) 5,
   sendRetry_rateLimit_consumes_budget.2 (fun _ => SendOutcome.retryAfter 1) 5 1
     (by omega) rfl⟩

/-- Outcome of one attempt to establish the notification-listener connection
(`asyncpg.connect` plus `add_listener`, main.py lines 72-81). -/
inductive ConnResult where
  | ok
  | err (msg : String)
deriving Repr, DecidableEq

/-- Observable result of one run of the `pg_listener` coroutine. -/
structure ListenerRun where
  connectAttempts : Nat
  errorLogged : Bool
  reachedListenLoop : Bool
deriving Repr, DecidableEq

/-- Embedding of `pg_listener` (main.py lines 67-96).  The whole body is a
single `try` block with no loop around it: one `asyncpg.connect` call, one
`add_listener`, then a keep-alive sleep loop until shutdown; the `except`
arm logs the error and falls through to the `finally` cleanup, after which
the coroutine returns.  `connectResult k` gives the outcome the k-th
connection attempt would have; the body only ever consults attempt 0,
because no reconnection code exists. -/
def pgListener (connectResult : Nat → ConnResult) : ListenerRun :=
  match connectResult 0 with
  | .err _ => { connectAttempts := 1, errorLogged := true, reachedListenLoop := false }
  | .ok => { connectAttempts := 1, errorLogged := false, reachedListenLoop := true }

/-- Claim C4 (counterexample): the bridge does not retry after a connection
failure.  With every connection attempt failing, `pg_listener` logs the
error and returns after exactly one attempt — it never re-establishes the
subscription, contradicting the claimed indefinite background retry. -/
theorem pgListener_no_retry_cex :
    pgListener (fun _ => ConnResult.err "connection refused")
      = { connectAttempts := 1, errorLogged := true, reachedListenLoop := false } ∧
    ¬ 2 ≤ (pgListener (fun _ => ConnResult.err "connection refused")).connectAttempts := by
  constructor
  · rfl
  · intro h
    simp [pgListener] at h

/-- Claim C4 (amended): when the subscription connection fails, the bridge
logs the error and terminates after that single attempt; it makes no second
connection attempt.  Campaign pickup then falls entirely to the periodic
fallback scan. -/
theorem pgListener_logs_and_stops (connectResult : Nat → ConnResult)
    (m : String) (h : connectResult 0 = .err m) :
    pgListener connectResult
      = { connectAttempts := 1, errorLogged := true, reachedListenLoop := false } := by
  simp [pgListener, h]

/-- Witness for the amended claim C4 at a concrete failing connection. -/
theorem pgListener_logs_and_stops_witness :
    pgListener (fun _ => ConnResult.err "refused")
      = { connectAttempts := 1, errorLogged := true, reachedListenLoop := false } :=
  pgListener_logs_and_stops (fun _ => ConnResult.err "refused") "refused" rfl

/-- JSON-like value stored in a campaign `content` payload. -/
inductive JVal where
  | jnum (n : Int)
  | jstr (s : String)
  | jbool (b : Bool)
  | jnull
deriving Repr, DecidableEq

/-- Python truthiness test on a payload value, as used by
`if not target_user_id` (main.py line 211): `0`, `""`, `False` and `None`
are falsy. -/
def JVal.falsy : JVal → Bool
  | .jnum n => n = 0
  | .jstr s => s = ""
  | .jbool b => !b
  | .jnull => true

/-- Truthiness of `content.get(key)`: a missing key gives `None`, which is
falsy. -/
def optFalsy : Option JVal → Bool
  | none => true
  | some v => v.falsy

/-- Observable effect of one run of `execute_single_message`: the delivery
attempts made (recipient value and payload) and the `(sent, failed)` pair
passed to `mark_campaign_completed`, if any. -/
structure SingleMsgRun where
  deliveries : List (JVal × List (String × JVal))
  completion : Option (Nat × Nat)
deriving Repr, DecidableEq

/-- Embedding of `execute_single_message` (main.py lines 204-223).  The
campaign row lookup is summarized by `isCompleted` (the guard
`if info and info.get('is_completed'): return`); `content` is the payload as
an association list; `deliver` is the outcome `send_message_with_retry`
would return for a given recipient and payload. -/
def executeSingleMessage (isCompleted : Bool) (content : List (String × JVal))
    (deliver : JVal → List (String × JVal) → Bool) : SingleMsgRun :=
  if isCompleted then { deliveries := [], completion := none }
  else
    let target := content.lookup "target_user_id"
    if optFalsy target then { deliveries := [], completion := some (0, 1) }
    else
      match target with
      | none => { deliveries := [], completion := some (0, 1) }
      | some tv =>
        let msgContent := content.filter fun kv => kv.1 ≠ "target_user_id"
        if deliver tv msgContent then
          { deliveries := [(tv, msgContent)], completion := some (1, 0) }
        else
          { deliveries := [(tv, msgContent)], completion := some (0, 1) }

/-- Claim C10 (counterexample): the dispatch on `target_user_id` tests Python
truthiness, not field presence.  A payload that contains
`target_user_id = 0` alongside a text has the field, yet the run makes no
delivery attempt and completes with `sent=0, failed=1`, where the claim
demands exactly one delivery attempt. -/
theorem executeSingleMessage_falsy_target_cex :
    executeSingleMessage false
        [("target_user_id", JVal.jnum 0), ("text", JVal.jstr "hi")]
        (fun _ _ => true)
      = { deliveries := [], completion := some (0, 1) } ∧
    ([("target_user_id", JVal.jnum 0), ("text", JVal.jstr "hi")].lookup
        "target_user_id" = some (JVal.jnum 0)) ∧
    ¬ (executeSingleMessage false
        [("target_user_id", JVal.jnum 0), ("text", JVal.jstr "hi")]
        (fun _ _ => true)).deliveries.length = 1 := by
  refine ⟨by decide, by decide, by decide⟩

/-- Claim C10 (amended): for a not-yet-completed single_message campaign whose
payload lacks `target_user_id` or maps it to a falsy value (`0`, `""`,
`False`, `None`), execution makes no delivery attempt and completes the
campaign with `sent=0, failed=1`; when the value is truthy, exactly one
delivery is attempted to it with the payload minus `target_user_id`, and the
campaign completes with `(1, 0)` on success and `(0, 1)` on soft failure. -/
theorem executeSingleMessage_dispatch (content : List (String × JVal))
    (deliver : JVal → List (String × JVal) → Bool) :
    (optFalsy (content.lookup "target_user_id") = true →
      executeSingleMessage false content deliver
        = { deliveries := [], completion := some (0, 1) }) ∧
    (∀ tv, content.lookup "target_user_id" = some tv → tv.falsy = false →
      executeSingleMessage false content deliver
        = { deliveries :=
              [(tv, content.filter fun kv => kv.1 ≠ "target_user_id")],
            completion :=
              if deliver tv (content.filter fun kv => kv.1 ≠ "target_user_id")
              then some (1, 0) else some (0, 1) }) := by
  constructor
  · intro h
    simp [executeSingleMessage, h]
  · intro tv hlook hfalsy
    have hopt : optFalsy (some tv) = false := hfalsy
    simp only [executeSingleMessage, hlook, hopt, Bool.false_eq_true, if_false]
    split <;> simp_all

/-- Witness for the amended claim C10: a falsy (empty-string) target completes
with `(0, 1)` and no delivery; a truthy target 42 gets exactly one delivery
of the payload minus the target key. -/
theorem executeSingleMessage_dispatch_witness :
    (executeSingleMessage false
        [("target_user_id", JVal.jstr ""), ("text", JVal.jstr "a")]
        (fun _ _ => true)
      = { deliveries := [], completion := some (0, 1) }) ∧
    (executeSingleMessage false
        [("target_user_id", JVal.jnum 42), ("text", JVal.jstr "a")]
        (fun _ _ => true)
      = { deliveries := [(JVal.jnum 42, [("text", JVal.jstr "a")])],
          completion := some (1, 0) }) := by
  constructor
  · exact (executeSingleMessage_dispatch
      [("target_user_id", JVal.jstr ""), ("text", JVal.jstr "a")]
      (fun _ _ => true)).1 (by decide)
  · have := (executeSingleMessage_dispatch
      [("target_user_id", JVal.jnum 42), ("text", JVal.jstr "a")]
      (fun _ _ => true)).2 (JVal.jnum 42) (by decide) (by decide)
    simpa using this

/-- Row of the `users` table (db.py lines 100-108), restricted to the columns
the verified queries touch. -/
structure UserRow where
  uid : Nat
  telegramId : Nat
  isBlocked : Bool
deriving Repr, DecidableEq

/-- Row of the `receipts` table (db.py lines 110-124), restricted to the
columns the participant-pool query touches. -/
structure Receipt where
  userId : Nat
  status : String
deriving Repr, DecidableEq

/-- Filter of `get_user_ids_paginated` (methods.py lines 90-96):
`is_blocked = FALSE AND id > $1`.  The table list is kept in ascending-id
order (SERIAL primary key), matching `ORDER BY id`. -/
def eligibleAfter (users : List UserRow) (lastId : Nat) : List UserRow :=
  users.filter fun u => !u.isBlocked && decide (lastId < u.uid)

/-- Embedding of `get_user_ids_paginated` (methods.py lines 90-96): one page
of at most `lim` non-blocked users with id strictly above `lastId`,
ascending. -/
def getUserIdsPaginated (users : List UserRow) (lastId lim : Nat) : List UserRow :=
  (eligibleAfter users lastId).take lim

/-- Embedding of `get_participants_with_ids` (methods.py lines 211-216):
`SELECT DISTINCT u.id, ... FROM users u JOIN receipts r ON u.id = r.user_id
WHERE r.status = 'valid'` — the users having at least one valid receipt,
with no condition on `is_blocked`. -/
def getParticipantsWithIds (users : List UserRow) (receipts : List Receipt) :
    List UserRow :=
  users.filter fun u =>
    receipts.any fun r => decide (r.userId = u.uid) && decide (r.status = "valid")

/-- Claim C9: the two fan-outs filter blocked users differently.  Every user
on any broadcast page is non-blocked, while membership in the raffle
participant pool depends only on having a valid receipt — so a blocked user
holding a valid receipt is absent from every broadcast page yet present in
the pool. -/
theorem blocked_filtering_divergence (users : List UserRow)
    (receipts : List Receipt) (u : UserRow) (r : Receipt)
    (hu : u ∈ users) (hblocked : u.isBlocked = true)
    (hr : r ∈ receipts) (hru : r.userId = u.uid) (hvalid : r.status = "valid") :
    (∀ lastId lim : Nat, u ∉ getUserIdsPaginated users lastId lim) ∧
    u ∈ getParticipantsWithIds users receipts ∧
    (∀ users2 : List UserRow, ∀ lastId lim : Nat, ∀ u2 : UserRow,
      u2 ∈ getUserIdsPaginated users2 lastId lim → u2.isBlocked = false) := by
  refine ⟨?_, ?_, ?_⟩
  · intro lastId lim hmem
    have h1 : u ∈ eligibleAfter users lastId :=
      List.mem_of_mem_take hmem
    have h2 := (List.mem_filter.mp h1).2
    rw [hblocked] at h2
    simp at h2
  · rw [getParticipantsWithIds, List.mem_filter]
    refine ⟨hu, ?_⟩
    rw [List.any_eq_true]
    exact ⟨r, hr, by rw [decide_eq_true hru, decide_eq_true hvalid]; rfl⟩
  · intro users2 lastId lim u2 hmem
    have h1 : u2 ∈ eligibleAfter users2 lastId :=
      List.mem_of_mem_take hmem
    have h2 := (List.mem_filter.mp h1).2
    cases hb : u2.isBlocked
    · rfl
    · rw [hb] at h2
      simp at h2

/-- Witness for claim C9: blocked user 2 with a valid receipt is on no
broadcast page but is in the raffle pool. -/
theorem blocked_filtering_divergence_witness :
    (∀ lastId lim : Nat,
      ({ uid := 2, telegramId := 200, isBlocked := true } : UserRow)
        ∉ getUserIdsPaginated
            [{ uid := 1, telegramId := 100, isBlocked := false },
             { uid := 2, telegramId := 200, isBlocked := true }] lastId lim) ∧
    ({ uid := 2, telegramId := 200, isBlocked := true } : UserRow)
      ∈ getParticipantsWithIds
          [{ uid := 1, telegramId := 100, isBlocked := false },
           { uid := 2, telegramId := 200, isBlocked := true }]
          [{ userId := 2, status := "valid" }] := by
  have h := blocked_filtering_divergence
    [{ uid := 1, telegramId := 100, isBlocked := false },
     { uid := 2, telegramId := 200, isBlocked := true }]
    [{ userId := 2, status := "valid" }]
    { uid := 2, telegramId := 200, isBlocked := true }
    { userId := 2, status := "valid" }
    (by decide) rfl (by decide) rfl rfl
  exact ⟨h.1, h.2.1⟩

/-- Row of the `winners` table (db.py lines 138-148), which carries a
`UNIQUE(campaign_id, user_id)` constraint. -/
structure Winner where
  wid : Nat
  campaignId : Nat
  userId : Nat
  telegramId : Nat
  prizeName : String
  notified : Bool
deriving Repr, DecidableEq

/-- One element of the `winners_data` argument of `save_winners_atomic`. -/
structure WinnerData where
  userId : Nat
  telegramId : Nat
  prizeName : String
deriving Repr, DecidableEq

/-- Value of `SELECT COUNT(*) FROM winners WHERE campaign_id = $1`
(methods.py line 226). -/
def countWinners (ws : List Winner) (cid : Nat) : Nat :=
  (ws.filter fun w => decide (w.campaignId = cid)).length

/-- One `INSERT INTO winners ... ON CONFLICT DO NOTHING` (methods.py lines
233-236): the row is appended unless a row with the same
`(campaign_id, user_id)` already exists; the SERIAL id is the next free one. -/
def insertWinnerOnConflict (ws : List Winner) (cid : Nat) (d : WinnerData) :
    List Winner :=
  if ws.any fun w => decide (w.campaignId = cid) && decide (w.userId = d.userId)
  then ws
  else ws ++ [{ wid := ws.length, campaignId := cid, userId := d.userId,
                telegramId := d.telegramId, prizeName := d.prizeName,
                notified := false }]

/-- Embedding of `save_winners_atomic` (methods.py lines 219-240):
try-acquire the per-campaign advisory lock (`lockAcquired` is the
`pg_try_advisory_lock` result); on failure return 0 rows; if any winner row
for the campaign already exists return 0 rows; otherwise insert every entry
(each with `ON CONFLICT DO NOTHING`) and return `len(winners_data)` (the
source increments `count` per loop iteration, conflicts included). -/
def saveWinnersAtomic (ws : List Winner) (cid : Nat) (data : List WinnerData)
    (lockAcquired : Bool) : List Winner × Nat :=
  if !lockAcquired then (ws, 0)
  else if 0 < countWinners ws cid then (ws, 0)
  else (data.foldl (fun acc d => insertWinnerOnConflict acc cid d) ws, data.length)

/-- Embedding of `get_unnotified_winners` (methods.py lines 243-249):
`WHERE w.notified = FALSE AND w.campaign_id = $1` (the joined campaign
content column is not modelled). -/
def getUnnotifiedWinners (ws : List Winner) (cid : Nat) : List Winner :=
  ws.filter fun w => !w.notified && decide (w.campaignId = cid)

/-- Helper: inserting entries with pairwise-distinct user ids into a table
whose rows for the campaign avoid all those user ids appends one row per
entry. -/
theorem countWinners_foldl_insert (cid : Nat) :
    ∀ (data : List WinnerData) (ws : List Winner),
      (∀ w ∈ ws, w.campaignId = cid → ∀ d ∈ data, w.userId ≠ d.userId) →
      (data.map WinnerData.userId).Nodup →
      countWinners (data.foldl (fun acc d => insertWinnerOnConflict acc cid d) ws) cid
        = countWinners ws cid + data.length := by
  intro data
  induction data with
  | nil => intro ws _ _; simp
  | cons d rest ih =>
    intro ws havoid hnodup
    have hins : insertWinnerOnConflict ws cid d
        = ws ++ [{ wid := ws.length, campaignId := cid, userId := d.userId,
                   telegramId := d.telegramId, prizeName := d.prizeName,
                   notified := false }] := by
      rw [insertWinnerOnConflict, if_neg]
      intro hany
      rw [List.any_eq_true] at hany
      obtain ⟨w, hw, hpred⟩ := hany
      rw [Bool.and_eq_true, decide_eq_true_eq, decide_eq_true_eq] at hpred
      exact havoid w hw hpred.1 d (List.mem_cons_self d rest) hpred.2
    rw [List.foldl_cons, hins]
    rw [ih]
    · rw [countWinners, List.filter_append, List.length_append]
      simp [countWinners, List.length_cons]
      omega
    · intro w hw hwcid d2 hd2
      rcases List.mem_append.mp hw with hold | hnew
      · exact havoid w hold hwcid d2 (List.mem_cons_of_mem d hd2)
      · rw [List.mem_singleton] at hnew
        subst hnew
        simp only
        intro heq
        rw [List.map_cons, List.nodup_cons] at hnodup
        exact hnodup.1 (heq ▸ List.mem_map_of_mem WinnerData.userId hd2)
    · rw [List.map_cons, List.nodup_cons] at hnodup
      exact hnodup.2

/-- Claim C2: winner selection is idempotent once committed.  Starting from a
table with no winner rows for the campaign, committing a nonempty selection
with pairwise-distinct user ids leaves exactly `K = data.length` winner rows
for it, and any further `save_winners_atomic` call for the campaign —
whether or not it wins the advisory lock, and whatever selection it brings —
inserts nothing, returns 0, and leaves a reader with exactly the same
committed winner set. -/
theorem saveWinnersAtomic_idempotent (ws : List Winner) (cid : Nat)
    (data : List WinnerData) (hfresh : countWinners ws cid = 0)
    (hne : data ≠ []) (hnodup : (data.map WinnerData.userId).Nodup) :
    countWinners (saveWinnersAtomic ws cid data true).1 cid = data.length ∧
    (∀ data2 : List WinnerData, ∀ lock2 : Bool,
      saveWinnersAtomic (saveWinnersAtomic ws cid data true).1 cid data2 lock2
        = ((saveWinnersAtomic ws cid data true).1, 0)) ∧
    (∀ data2 : List WinnerData, ∀ lock2 : Bool,
      getUnnotifiedWinners
          (saveWinnersAtomic (saveWinnersAtomic ws cid data true).1 cid data2 lock2).1 cid
        = getUnnotifiedWinners (saveWinnersAtomic ws cid data true).1 cid) := by
  have havoid : ∀ w ∈ ws, w.campaignId = cid → ∀ d ∈ data, w.userId ≠ d.userId := by
    intro w hw hwcid
    exfalso
    have : w ∈ ws.filter fun w => decide (w.campaignId = cid) :=
      List.mem_filter.mpr ⟨hw, decide_eq_true hwcid⟩
    rw [countWinners, List.length_eq_zero] at hfresh
    rw [hfresh] at this
    exact List.not_mem_nil w this
  have hrun : saveWinnersAtomic ws cid data true
      = (data.foldl (fun acc d => insertWinnerOnConflict acc cid d) ws, data.length) := by
    rw [saveWinnersAtomic, if_neg (by simp), if_neg (by omega)]
  have hcount : countWinners (saveWinnersAtomic ws cid data true).1 cid = data.length := by
    rw [hrun]
    simpa [hfresh] using countWinners_foldl_insert cid data ws havoid hnodup
  have hpos : 0 < countWinners (saveWinnersAtomic ws cid data true).1 cid := by
    rw [hcount]
    exact List.length_pos.mpr hne
  have hsecond : ∀ data2 : List WinnerData, ∀ lock2 : Bool,
      saveWinnersAtomic (saveWinnersAtomic ws cid data true).1 cid data2 lock2
        = ((saveWinnersAtomic ws cid data true).1, 0) := by
    intro data2 lock2
    cases lock2 with
    | false => simp [saveWinnersAtomic]
    | true => rw [saveWinnersAtomic, if_neg (by simp), if_pos hpos]
  refine ⟨hcount, hsecond, ?_⟩
  intro data2 lock2
  rw [hsecond data2 lock2]

/-- Witness for claim C2: committing winners 10 and 11 for campaign 1 on an
empty table yields 2 winner rows; a racing second call (lock acquired, a
different selection) changes nothing and returns 0, and reads back the same
unnotified winner set. -/
theorem saveWinnersAtomic_idempotent_witness :
    countWinners
        (saveWinnersAtomic [] 1
          [{ userId := 10, telegramId := 100, prizeName := "p" },
           { userId := 11, telegramId := 101, prizeName := "p" }] true).1 1 = 2 ∧
    saveWinnersAtomic
        (saveWinnersAtomic [] 1
          [{ userId := 10, telegramId := 100, prizeName := "p" },
           { userId := 11, telegramId := 101, prizeName := "p" }] true).1 1
        [{ userId := 12, telegramId := 102, prizeName := "p" }] true
      = ((saveWinnersAtomic [] 1
          [{ userId := 10, telegramId := 100, prizeName := "p" },
           { userId := 11, telegramId := 101, prizeName := "p" }] true).1, 0) ∧
    getUnnotifiedWinners
        (saveWinnersAtomic
          (saveWinnersAtomic [] 1
            [{ userId := 10, telegramId := 100, prizeName := "p" },
             { userId := 11, telegramId := 101, prizeName := "p" }] true).1 1
          [{ userId := 12, telegramId := 102, prizeName := "p" }] true).1 1
      = getUnnotifiedWinners
          (saveWinnersAtomic [] 1
            [{ userId := 10, telegramId := 100, prizeName := "p" },
             { userId := 11, telegramId := 101, prizeName := "p" }] true).1 1 := by
  have h := saveWinnersAtomic_idempotent [] 1
    [{ userId := 10, telegramId := 100, prizeName := "p" },
     { userId := 11, telegramId := 101, prizeName := "p" }]
    rfl (by decide) (by decide)
  exact ⟨h.1,
    h.2.1 [{ userId := 12, telegramId := 102, prizeName := "p" }] true,
    h.2.2 [{ userId := 12, telegramId := 102, prizeName := "p" }] true⟩

/-- Mutable state of the `execute_broadcast` loop (main.py lines 161-201),
plus observable traces: `attempted` records the ids of the recipients a
delivery was attempted for, `sleeps` the batch positions at which the
throttling sleep fired, `checkpoints` the `(last_user_id, sent, failed)`
triples passed to `save_broadcast_progress`. -/
structure BcastState where
  lastUserId : Nat
  sent : Nat
  failed : Nat
  attempted : List Nat
  sleeps : List Nat
  checkpoints : List (Nat × Nat × Nat)
deriving Repr, DecidableEq

/-- Per-recipient body of the broadcast loop (main.py lines 181-197), for the
recipient at index `i` of the current page: attempt delivery and bump
sent/failed; advance `last_user_id` to this recipient's id; at every
`BROADCAST_BATCH_SIZE`-th index sleep the throttling delay; when
`(sent + failed) % 100 == 0` persist the checkpoint.  The shutdown check is
omitted (the claims concern uninterrupted runs). -/
def processUser (deliver : Nat → Bool) (batchSize : Nat) (i : Nat)
    (st : BcastState) (u : UserRow) : BcastState :=
  let st1 := if deliver u.telegramId then { st with sent := st.sent + 1 }
             else { st with failed := st.failed + 1 }
  let st2 := { st1 with lastUserId := u.uid, attempted := st1.attempted ++ [u.uid] }
  let st3 := if (i + 1) % batchSize = 0
             then { st2 with sleeps := st2.sleeps ++ [i + 1] } else st2
  if (st3.sent + st3.failed) % 100 = 0 then
    { st3 with checkpoints := st3.checkpoints ++ [(st3.lastUserId, st3.sent, st3.failed)] }
  else st3

/-- The `for i, u in enumerate(users)` page loop (main.py line 181), from
index `i` on. -/
def processPageGo (deliver : Nat → Bool) (batchSize : Nat) :
    Nat → BcastState → List UserRow → BcastState
  | _, st, [] => st
  | i, st, u :: rest =>
    processPageGo deliver batchSize (i + 1) (processUser deliver batchSize i st u) rest

/-- Processing of one fetched page, indices starting at 0. -/
def processPage (deliver : Nat → Bool) (batchSize : Nat) (st : BcastState)
    (page : List UserRow) : BcastState :=
  processPageGo deliver batchSize 0 st page

/-- The `while True` pagination loop of `execute_broadcast` (main.py lines
172-198): fetch the next page after the cursor; an empty page ends the loop
(second component `true`); otherwise process the page and continue.  `fuel`
bounds the number of pages (the Python loop is unbounded; every theorem
shows the supplied fuel suffices, so the bound is not a behavioural change). -/
def broadcastRun (deliver : Nat → Bool) (batchSize : Nat) (users : List UserRow)
    (lim : Nat) : Nat → BcastState → BcastState × Bool
  | 0, st => (st, false)
  | fuel + 1, st =>
    let page := getUserIdsPaginated users st.lastUserId lim
    if page.isEmpty then (st, true)
    else broadcastRun deliver batchSize users lim fuel
      (processPage deliver batchSize st page)

/-- Checkpoint loading of `execute_broadcast` (main.py lines 167-170):
`last_user_id`, `sent_count`, `failed_count` from the progress row, or
zeros. -/
def initProgress (progress : Option (Nat × Nat × Nat)) : BcastState :=
  match progress with
  | some p => { lastUserId := p.1, sent := p.2.1, failed := p.2.2,
                attempted := [], sleeps := [], checkpoints := [] }
  | none => { lastUserId := 0, sent := 0, failed := 0,
              attempted := [], sleeps := [], checkpoints := [] }

/-- Embedding of `execute_broadcast` (main.py lines 161-201): a completed
campaign is a no-op (`none`); otherwise run the pagination loop from the
loaded checkpoint. -/
def executeBroadcast (deliver : Nat → Bool) (batchSize : Nat)
    (users : List UserRow) (lim fuel : Nat) (isCompleted : Bool)
    (progress : Option (Nat × Nat × Nat)) : Option (BcastState × Bool) :=
  if isCompleted then none
  else some (broadcastRun deliver batchSize users lim fuel (initProgress progress))

/-- Helper: one loop body appends exactly this recipient to the attempt
trace. -/
theorem processUser_attempted (deliver : Nat → Bool) (batchSize i : Nat)
    (st : BcastState) (u : UserRow) :
    (processUser deliver batchSize i st u).attempted = st.attempted ++ [u.uid] := by
  rw [processUser]
  by_cases hd : deliver u.telegramId <;>
    by_cases hb : (i + 1) % batchSize = 0 <;>
      simp only [hd, hb, if_true, if_false, Bool.false_eq_true, if_pos, if_neg] <;>
        split <;> rfl

/-- Helper: one loop body advances the cursor to this recipient's id. -/
theorem processUser_lastUserId (deliver : Nat → Bool) (batchSize i : Nat)
    (st : BcastState) (u : UserRow) :
    (processUser deliver batchSize i st u).lastUserId = u.uid := by
  rw [processUser]
  by_cases hd : deliver u.telegramId <;>
    by_cases hb : (i + 1) % batchSize = 0 <;>
      simp only [hd, hb, if_true, if_false, Bool.false_eq_true, if_pos, if_neg] <;>
        split <;> rfl

/-- Helper: one loop body counts exactly one delivery. -/
theorem processUser_total (deliver : Nat → Bool) (batchSize i : Nat)
    (st : BcastState) (u : UserRow) :
    (processUser deliver batchSize i st u).sent
        + (processUser deliver batchSize i st u).failed
      = st.sent + st.failed + 1 := by
  rw [processUser]
  by_cases hd : deliver u.telegramId <;>
    by_cases hb : (i + 1) % batchSize = 0 <;>
      simp only [hd, hb, if_true, if_false, Bool.false_eq_true, if_pos, if_neg] <;>
        split <;> simp <;> omega

/-- Value of the cursor after a page: the id of the last processed recipient
(default `d` for an empty page), as the page fold computes it. -/
def lastUid (page : List UserRow) (d : Nat) : Nat :=
  page.foldl (fun _ u => u.uid) d

theorem lastUid_cons (a : UserRow) (t : List UserRow) (d : Nat) :
    lastUid (a :: t) d = lastUid t a.uid := rfl

/-- Helper: the cursor after a nonempty page is the id of one of its
elements. -/
theorem lastUid_mem : ∀ (t : List UserRow) (a : UserRow) (d : Nat),
    ∃ u, u ∈ a :: t ∧ lastUid (a :: t) d = u.uid := by
  intro t
  induction t with
  | nil => intro a d; exact ⟨a, List.mem_singleton.mpr rfl, rfl⟩
  | cons b t2 ih =>
    intro a d
    obtain ⟨u, hu, he⟩ := ih b a.uid
    exact ⟨u, List.mem_cons_of_mem a hu, he⟩

/-- Helper: the page fold computes `lastUid`. -/
theorem processPageGo_lastUserId (deliver : Nat → Bool) (batchSize : Nat) :
    ∀ (page : List UserRow) (i : Nat) (st : BcastState),
      (processPageGo deliver batchSize i st page).lastUserId
        = lastUid page st.lastUserId := by
  intro page
  induction page with
  | nil => intro i st; rfl
  | cons u rest ih =>
    intro i st
    rw [processPageGo, ih, lastUid_cons,
      lastUid, lastUid, processUser_lastUserId]

/-- Helper: the page loop appends the page's ids to the attempt trace. -/
theorem processPageGo_attempted (deliver : Nat → Bool) (batchSize : Nat) :
    ∀ (page : List UserRow) (i : Nat) (st : BcastState),
      (processPageGo deliver batchSize i st page).attempted
        = st.attempted ++ page.map UserRow.uid := by
  intro page
  induction page with
  | nil => intro i st; simp [processPageGo]
  | cons u rest ih =>
    intro i st
    rw [processPageGo, ih, processUser_attempted]
    simp

/-- Helper: on a strictly ascending list whose elements all exceed `d`,
keeping the elements greater than the last id of the first `k` is dropping
those first `k`. -/
theorem filter_gt_lastUid_take :
    ∀ (l : List UserRow) (k d : Nat), 0 < k →
      l.Pairwise (fun a b => a.uid < b.uid) →
      (∀ u ∈ l, d < u.uid) →
      (l.filter fun u => decide (lastUid (l.take k) d < u.uid)) = l.drop k := by
  intro l
  induction l with
  | nil => intro k d _ _ _; simp
  | cons a t ih =>
    intro k d hk hpair hgt
    obtain ⟨k1, rfl⟩ : ∃ k1, k = k1 + 1 := ⟨k - 1, by omega⟩
    have hhead : ∀ u ∈ t, a.uid < u.uid := fun u hu =>
      (List.pairwise_cons.mp hpair).1 u hu
    cases k1 with
    | zero =>
      rw [List.take_succ_cons, List.take_zero, List.drop_succ_cons, List.drop_zero]
      have hlast : lastUid [a] d = a.uid := rfl
      rw [hlast, List.filter_cons]
      have hself : decide (a.uid < a.uid) = false := by simp
      rw [hself]
      simp only [Bool.false_eq_true, if_false]
      exact List.filter_eq_self.mpr fun u hu => decide_eq_true (hhead u hu)
    | succ k2 =>
      cases t with
      | nil =>
        rw [List.take_succ_cons, List.take_nil]
        have hlast : lastUid [a] d = a.uid := rfl
        rw [hlast, List.filter_cons]
        have hself : decide (a.uid < a.uid) = false := by simp
        rw [hself]
        simp
      | cons b t2 =>
        have htake : (a :: b :: t2).take (k2 + 1 + 1) = a :: (b :: t2).take (k2 + 1) :=
          List.take_succ_cons
        rw [htake, lastUid_cons]
        have hrec := ih (k2 + 1) a.uid (Nat.succ_pos k2)
          (List.pairwise_cons.mp hpair).2 hhead
        rw [List.filter_cons]
        have hM : ∃ u, u ∈ (b :: t2).take (k2 + 1) ∧
            lastUid ((b :: t2).take (k2 + 1)) a.uid = u.uid := by
          rw [List.take_succ_cons]
          exact lastUid_mem (t2.take k2) b a.uid
        obtain ⟨u, humem, hue⟩ := hM
        have hua : a.uid < u.uid := hhead u (List.mem_of_mem_take humem)
        have hhd : decide (lastUid ((b :: t2).take (k2 + 1)) a.uid < a.uid) = false := by
          rw [hue]
          simp only [decide_eq_false_iff_not, not_lt]
          omega
        rw [hhd]
        simp only [Bool.false_eq_true, if_false]
        rw [hrec]
        rfl

/-- Helper: `eligibleAfter` lists are strictly ascending when the table is. -/
theorem eligibleAfter_pairwise (users : List UserRow) (lastId : Nat)
    (h : users.Pairwise fun a b => a.uid < b.uid) :
    (eligibleAfter users lastId).Pairwise fun a b => a.uid < b.uid :=
  h.filter _

/-- Helper: every eligible user sits strictly beyond the cursor. -/
theorem eligibleAfter_gt (users : List UserRow) (lastId : Nat) :
    ∀ u ∈ eligibleAfter users lastId, lastId < u.uid := by
  intro u hu
  have h := (List.mem_filter.mp hu).2
  rw [Bool.and_eq_true, decide_eq_true_eq] at h
  exact h.2

/-- Helper: advancing the cursor restricts the eligible list. -/
theorem eligibleAfter_advance (users : List UserRow) (lastId m : Nat)
    (hm : lastId ≤ m) :
    eligibleAfter users m
      = (eligibleAfter users lastId).filter fun u => decide (m < u.uid) := by
  rw [eligibleAfter, eligibleAfter, List.filter_filter]
  refine List.filter_congr fun u _ => ?_
  by_cases h1 : m < u.uid
  · have h2 : lastId < u.uid := by omega
    simp [h1, h2]
  · simp [h1]

/-- Helper (main induction for the broadcast loop): over a strictly
ascending table, with positive page size and enough fuel, the pagination
loop terminates at an empty page and its attempt trace extends the initial
one by exactly the eligible users beyond the starting cursor, in order. -/
theorem broadcastRun_covers (deliver : Nat → Bool) (batchSize : Nat)
    (users : List UserRow) (lim : Nat)
    (hsorted : users.Pairwise fun a b => a.uid < b.uid) (hlim : 0 < lim) :
    ∀ fuel st, (eligibleAfter users st.lastUserId).length < fuel →
      (broadcastRun deliver batchSize users lim fuel st).2 = true ∧
      (broadcastRun deliver batchSize users lim fuel st).1.attempted
        = st.attempted ++ (eligibleAfter users st.lastUserId).map UserRow.uid := by
  intro fuel
  induction fuel with
  | zero => intro st h; omega
  | succ n ih =>
    intro st hlen
    have hbody : broadcastRun deliver batchSize users lim (n + 1) st
        = (if (getUserIdsPaginated users st.lastUserId lim).isEmpty then (st, true)
           else broadcastRun deliver batchSize users lim n
             (processPage deliver batchSize st
               (getUserIdsPaginated users st.lastUserId lim))) := rfl
    cases hE : eligibleAfter users st.lastUserId with
    | nil =>
      have hpage : getUserIdsPaginated users st.lastUserId lim = [] := by
        rw [getUserIdsPaginated, hE, List.take_nil]
      rw [hbody, hpage]
      simp
    | cons e E2 =>
      obtain ⟨l1, rfl⟩ : ∃ l1, lim = l1 + 1 := ⟨lim - 1, by omega⟩
      have hpage : getUserIdsPaginated users st.lastUserId (l1 + 1)
          = e :: E2.take l1 := by
        rw [getUserIdsPaginated, hE, List.take_succ_cons]
      have hpairE : (e :: E2).Pairwise fun a b => a.uid < b.uid := by
        rw [← hE]; exact eligibleAfter_pairwise users st.lastUserId hsorted
      have hgtE : ∀ u ∈ e :: E2, st.lastUserId < u.uid := by
        intro u hu
        exact eligibleAfter_gt users st.lastUserId u (by rw [hE]; exact hu)
      have hlast' : (processPage deliver batchSize st (e :: E2.take l1)).lastUserId
          = lastUid (e :: E2.take l1) st.lastUserId :=
        processPageGo_lastUserId deliver batchSize (e :: E2.take l1) 0 st
      have hatt' : (processPage deliver batchSize st (e :: E2.take l1)).attempted
          = st.attempted ++ (e :: E2.take l1).map UserRow.uid :=
        processPageGo_attempted deliver batchSize (e :: E2.take l1) 0 st
      obtain ⟨u, humem, hue⟩ := lastUid_mem (E2.take l1) e st.lastUserId
      have humemE : u ∈ e :: E2 := by
        refine List.mem_of_mem_take (n := l1 + 1) ?_
        rw [List.take_succ_cons]
        exact humem
      have hle : st.lastUserId ≤ lastUid (e :: E2.take l1) st.lastUserId := by
        rw [hue]
        exact Nat.le_of_lt (hgtE u humemE)
      have hadv : eligibleAfter users
            (processPage deliver batchSize st (e :: E2.take l1)).lastUserId
          = (e :: E2).drop (l1 + 1) := by
        rw [hlast', eligibleAfter_advance users st.lastUserId _ hle, hE,
          show e :: E2.take l1 = (e :: E2).take (l1 + 1) from List.take_succ_cons.symm]
        exact filter_gt_lastUid_take (e :: E2) (l1 + 1) st.lastUserId
          (Nat.succ_pos l1) hpairE hgtE
      have hlen' : (eligibleAfter users
            (processPage deliver batchSize st (e :: E2.take l1)).lastUserId).length < n := by
        rw [hadv, List.length_drop]
        rw [hE] at hlen
        simp only [List.length_cons] at hlen ⊢
        omega
      obtain ⟨hdone, hatt⟩ := ih (processPage deliver batchSize st (e :: E2.take l1)) hlen'
      rw [hbody, hpage]
      simp only [List.isEmpty_cons, Bool.false_eq_true, if_false]
      refine ⟨hdone, ?_⟩
      rw [hatt, hadv, hatt', List.append_assoc, ← List.map_append,
        show e :: E2.take l1 = (e :: E2).take (l1 + 1) from List.take_succ_cons.symm,
        List.take_append_drop]

/-- Claim C3: broadcast execution resumes strictly after the checkpointed
cursor.  For a not-completed broadcast over a strictly ascending recipient
table, resuming from a checkpoint with cursor `L` runs to completion and
attempts delivery to exactly the non-blocked recipients with id strictly
greater than `L`, in ascending order — none with id ≤ L is re-attempted and
none beyond L is skipped.  (The checkpoint-lag tolerance concerns how stale
the persisted `L` may be after a crash, not which recipients a run with
cursor `L` covers.) -/
theorem executeBroadcast_resumes_after_cursor (deliver : Nat → Bool)
    (batchSize : Nat) (users : List UserRow) (lim fuel L s f : Nat)
    (hsorted : users.Pairwise fun a b => a.uid < b.uid) (hlim : 0 < lim)
    (hfuel : users.length < fuel) :
    executeBroadcast deliver batchSize users lim fuel false (some (L, s, f))
      = some (broadcastRun deliver batchSize users lim fuel
          (initProgress (some (L, s, f)))) ∧
    (broadcastRun deliver batchSize users lim fuel
        (initProgress (some (L, s, f)))).2 = true ∧
    (broadcastRun deliver batchSize users lim fuel
        (initProgress (some (L, s, f)))).1.attempted
      = (eligibleAfter users L).map UserRow.uid := by
  have hlen : (eligibleAfter users L).length < fuel :=
    Nat.lt_of_le_of_lt (List.length_filter_le _ users) hfuel
  have h := broadcastRun_covers deliver batchSize users lim hsorted hlim fuel
    (initProgress (some (L, s, f))) hlen
  exact ⟨rfl, h.1, by rw [h.2]; rfl⟩

/-- Witness for claim C3: a 4-user table with user 2 blocked, checkpoint
cursor 2, page size 1 (so several pages are fetched): the resumed run
completes and attempts exactly users 3 and 4. -/
theorem executeBroadcast_resumes_after_cursor_witness :
    executeBroadcast (fun tg => decide (tg % 2 = 0)) 25
        [{ uid := 1, telegramId := 11, isBlocked := false },
         { uid := 2, telegramId := 12, isBlocked := true },
         { uid := 3, telegramId := 13, isBlocked := false },
         { uid := 4, telegramId := 14, isBlocked := false }] 1 5 false
        (some (2, 7, 1))
      = some (broadcastRun (fun tg => decide (tg % 2 = 0)) 25
          [{ uid := 1, telegramId := 11, isBlocked := false },
           { uid := 2, telegramId := 12, isBlocked := true },
           { uid := 3, telegramId := 13, isBlocked := false },
           { uid := 4, telegramId := 14, isBlocked := false }] 1 5
          (initProgress (some (2, 7, 1)))) ∧
    (broadcastRun (fun tg => decide (tg % 2 = 0)) 25
        [{ uid := 1, telegramId := 11, isBlocked := false },
         { uid := 2, telegramId := 12, isBlocked := true },
         { uid := 3, telegramId := 13, isBlocked := false },
         { uid := 4, telegramId := 14, isBlocked := false }] 1 5
        (initProgress (some (2, 7, 1)))).2 = true ∧
    (broadcastRun (fun tg => decide (tg % 2 = 0)) 25
        [{ uid := 1, telegramId := 11, isBlocked := false },
         { uid := 2, telegramId := 12, isBlocked := true },
         { uid := 3, telegramId := 13, isBlocked := false },
         { uid := 4, telegramId := 14, isBlocked := false }] 1 5
        (initProgress (some (2, 7, 1)))).1.attempted = [3, 4] := by
  have h := executeBroadcast_resumes_after_cursor (fun tg => decide (tg % 2 = 0)) 25
    [{ uid := 1, telegramId := 11, isBlocked := false },
     { uid := 2, telegramId := 12, isBlocked := true },
     { uid := 3, telegramId := 13, isBlocked := false },
     { uid := 4, telegramId := 14, isBlocked := false }] 1 5 2 7 1
    (by decide) (by decide) (by decide)
  exact ⟨h.1, h.2.1, h.2.2.trans (by decide)⟩

/-- Helper: the throttling sleep fires exactly at batch boundaries
(`(i + 1) % BROADCAST_BATCH_SIZE == 0`, main.py lines 193-194), and only
the sleep does. -/
theorem processUser_sleeps (deliver : Nat → Bool) (batchSize i : Nat)
    (st : BcastState) (u : UserRow) :
    (processUser deliver batchSize i st u).sleeps
      = if (i + 1) % batchSize = 0 then st.sleeps ++ [i + 1] else st.sleeps := by
  rw [processUser]
  by_cases hd : deliver u.telegramId <;>
    by_cases hb : (i + 1) % batchSize = 0 <;>
      simp only [hd, hb, if_true, if_false, Bool.false_eq_true, if_pos, if_neg,
        not_false_iff] <;>
        split <;> rfl

/-- Helper: the checkpoint write fires exactly when the running delivery
total reaches a multiple of 100 (`(sent + failed) % 100 == 0`, main.py
lines 196-197), recording the advanced cursor and counters. -/
theorem processUser_checkpoints (deliver : Nat → Bool) (batchSize i : Nat)
    (st : BcastState) (u : UserRow) :
    (processUser deliver batchSize i st u).checkpoints
      = if (st.sent + st.failed + 1) % 100 = 0
        then st.checkpoints
          ++ [(u.uid,
               if deliver u.telegramId then st.sent + 1 else st.sent,
               if deliver u.telegramId then st.failed else st.failed + 1)]
        else st.checkpoints := by
  rw [processUser]
  by_cases hd : deliver u.telegramId <;>
    by_cases hb : (i + 1) % batchSize = 0 <;>
      simp only [hd, hb, if_true, if_false, Bool.false_eq_true, if_pos, if_neg,
        not_false_iff] <;>
      first
      | (rw [show st.sent + 1 + st.failed = st.sent + st.failed + 1 from by omega];
         split <;> rfl)
      | (rw [show st.sent + (st.failed + 1) = st.sent + st.failed + 1 from by omega];
         split <;> rfl)

/-- Delivery total recorded by the most recent checkpoint, or the total the
run started from when no checkpoint has been written yet. -/
def lastCkptTotal (init : Nat) (st : BcastState) : Nat :=
  (st.checkpoints.getLast?.map fun c => c.2.1 + c.2.2).getD init

/-- Invariant tying the durable checkpoint to true progress: the last
persisted total never exceeds the live total, and the gap between them is at
most the live total's residue mod 100. -/
def ckptInv (init : Nat) (st : BcastState) : Prop :=
  lastCkptTotal init st ≤ st.sent + st.failed ∧
  st.sent + st.failed - lastCkptTotal init st ≤ (st.sent + st.failed) % 100

/-- Helper: one loop body preserves the checkpoint-lag invariant. -/
theorem processUser_ckptInv (init : Nat) (deliver : Nat → Bool)
    (batchSize i : Nat) (st : BcastState) (u : UserRow) (h : ckptInv init st) :
    ckptInv init (processUser deliver batchSize i st u) := by
  have htot := processUser_total deliver batchSize i st u
  have hck := processUser_checkpoints deliver batchSize i st u
  obtain ⟨h1, h2⟩ := h
  by_cases hc : (st.sent + st.failed + 1) % 100 = 0
  · rw [if_pos hc] at hck
    have hlast : lastCkptTotal init (processUser deliver batchSize i st u)
        = (if deliver u.telegramId then st.sent + 1 else st.sent)
          + (if deliver u.telegramId then st.failed else st.failed + 1) := by
      unfold lastCkptTotal
      rw [hck, List.getLast?_concat]
      rfl
    have hsum : (if deliver u.telegramId then st.sent + 1 else st.sent)
          + (if deliver u.telegramId then st.failed else st.failed + 1)
        = st.sent + st.failed + 1 := by
      by_cases hd : deliver u.telegramId <;> simp [hd] <;> omega
    constructor
    · rw [hlast, hsum, htot]
    · rw [hlast, hsum, htot]
      omega
  · rw [if_neg hc] at hck
    have hlast : lastCkptTotal init (processUser deliver batchSize i st u)
        = lastCkptTotal init st := by
      unfold lastCkptTotal
      rw [hck]
    constructor
    · rw [hlast, htot]
      omega
    · rw [hlast, htot]
      omega

/-- Helper: the page loop preserves the checkpoint-lag invariant. -/
theorem processPageGo_ckptInv (init : Nat) (deliver : Nat → Bool)
    (batchSize : Nat) :
    ∀ (page : List UserRow) (i : Nat) (st : BcastState), ckptInv init st →
      ckptInv init (processPageGo deliver batchSize i st page) := by
  intro page
  induction page with
  | nil => intro i st h; exact h
  | cons u rest ih =>
    intro i st h
    exact ih (i + 1) _ (processUser_ckptInv init deliver batchSize i st u h)

/-- Helper: the whole pagination loop preserves the checkpoint-lag
invariant. -/
theorem broadcastRun_ckptInv (init : Nat) (deliver : Nat → Bool)
    (batchSize : Nat) (users : List UserRow) (lim : Nat) :
    ∀ (fuel : Nat) (st : BcastState), ckptInv init st →
      ckptInv init (broadcastRun deliver batchSize users lim fuel st).1 := by
  intro fuel
  induction fuel with
  | zero => intro st h; exact h
  | succ n ih =>
    intro st h
    have hbody : broadcastRun deliver batchSize users lim (n + 1) st
        = (if (getUserIdsPaginated users st.lastUserId lim).isEmpty then (st, true)
           else broadcastRun deliver batchSize users lim n
             (processPage deliver batchSize st
               (getUserIdsPaginated users st.lastUserId lim))) := rfl
    rw [hbody]
    split
    · exact h
    · exact ih _ (processPageGo_ckptInv init deliver batchSize _ 0 st h)

set_option maxRecDepth 4000 in
/-- Claim C8 (counterexample): the batch boundary only sleeps, it does not
persist.  A fresh broadcast over 25 recipients (one full default batch,
`BROADCAST_BATCH_SIZE = 25`) completes having fired the throttling sleep at
the batch boundary after 25 deliveries, yet `save_broadcast_progress` was
never called: the checkpoint trace is empty, where the claim requires a
persist at every batch boundary. -/
theorem broadcast_batch_boundary_no_checkpoint_cex :
    (broadcastRun (fun _ => true) 25
        ((List.range 25).map fun n =>
          { uid := n + 1, telegramId := n + 1, isBlocked := false }) 1000 2
        (initProgress none)).1.sleeps = [25] ∧
    (broadcastRun (fun _ => true) 25
        ((List.range 25).map fun n =>
          { uid := n + 1, telegramId := n + 1, isBlocked := false }) 1000 2
        (initProgress none)).1.checkpoints = [] ∧
    (broadcastRun (fun _ => true) 25
        ((List.range 25).map fun n =>
          { uid := n + 1, telegramId := n + 1, isBlocked := false }) 1000 2
        (initProgress none)).1.attempted.length = 25 ∧
    (broadcastRun (fun _ => true) 25
        ((List.range 25).map fun n =>
          { uid := n + 1, telegramId := n + 1, isBlocked := false }) 1000 2
        (initProgress none)).2 = true := by
  refine ⟨by decide, by decide, by decide, by decide⟩

/-- Claim C8 (amended): after every `BROADCAST_BATCH_SIZE` deliveries within
a page the loop sleeps the fixed throttling delay (and only sleeps — no
checkpoint is persisted at the batch boundary); the checkpoint is persisted
exactly when the cumulative delivery total reaches a multiple of 100,
independent of batch boundaries, and consequently the durable checkpoint
lags true progress by at most 99 deliveries throughout any run whose
starting state satisfies the checkpoint-lag invariant (as a fresh or
checkpoint-resumed start does). -/
theorem broadcast_throttle_checkpoint_cadence :
    (∀ (deliver : Nat → Bool) (batchSize i : Nat) (st : BcastState) (u : UserRow),
      (processUser deliver batchSize i st u).sleeps
        = if (i + 1) % batchSize = 0 then st.sleeps ++ [i + 1] else st.sleeps) ∧
    (∀ (deliver : Nat → Bool) (batchSize i : Nat) (st : BcastState) (u : UserRow),
      (processUser deliver batchSize i st u).checkpoints
        = if (st.sent + st.failed + 1) % 100 = 0
          then st.checkpoints
            ++ [(u.uid,
                 if deliver u.telegramId then st.sent + 1 else st.sent,
                 if deliver u.telegramId then st.failed else st.failed + 1)]
          else st.checkpoints) ∧
    (∀ (init : Nat) (deliver : Nat → Bool) (batchSize : Nat)
        (users : List UserRow) (lim fuel : Nat) (st : BcastState),
      ckptInv init st →
      ckptInv init (broadcastRun deliver batchSize users lim fuel st).1) ∧
    (∀ (init : Nat) (st : BcastState), ckptInv init st →
      st.sent + st.failed - lastCkptTotal init st ≤ 99) := by
  refine ⟨processUser_sleeps, processUser_checkpoints, ?_, ?_⟩
  · intro init deliver batchSize users lim fuel st h
    exact broadcastRun_ckptInv init deliver batchSize users lim fuel st h
  · intro init st h
    have := h.2
    omega

/-- Witness for the amended claim C8 at concrete inputs: the boundary step
25 sleeps without persisting; a step from total 99 persists; a completed
two-user run from a fresh state keeps the invariant, whose lag bound is 99. -/
theorem broadcast_throttle_checkpoint_cadence_witness :
    ((processUser (fun _ => true) 25 24 (initProgress none)
        { uid := 1, telegramId := 1, isBlocked := false }).sleeps
      = if (24 + 1) % 25 = 0 then (initProgress none).sleeps ++ [24 + 1]
        else (initProgress none).sleeps) ∧
    ((processUser (fun _ => true) 25 24 (initProgress none)
        { uid := 1, telegramId := 1, isBlocked := false }).checkpoints
      = if ((initProgress none).sent + (initProgress none).failed + 1) % 100 = 0
        then (initProgress none).checkpoints
          ++ [(1,
               if (fun (_ : Nat) => true) 1 then (initProgress none).sent + 1
               else (initProgress none).sent,
               if (fun (_ : Nat) => true) 1 then (initProgress none).failed
               else (initProgress none).failed + 1)]
        else (initProgress none).checkpoints) ∧
    ckptInv 0 (broadcastRun (fun _ => true) 25
        [{ uid := 1, telegramId := 1, isBlocked := false },
         { uid := 2, telegramId := 2, isBlocked := false }] 1000 2
        (initProgress none)).1 ∧
    (initProgress none).sent + (initProgress none).failed
        - lastCkptTotal 0 (initProgress none) ≤ 99 := by
  refine ⟨broadcast_throttle_checkpoint_cadence.1 (fun _ => true) 25 24
      (initProgress none) { uid := 1, telegramId := 1, isBlocked := false },
    broadcast_throttle_checkpoint_cadence.2.1 (fun _ => true) 25 24
      (initProgress none) { uid := 1, telegramId := 1, isBlocked := false },
    broadcast_throttle_checkpoint_cadence.2.2.1 0 (fun _ => true) 25
      [{ uid := 1, telegramId := 1, isBlocked := false },
       { uid := 2, telegramId := 2, isBlocked := false }] 1000 2
      (initProgress none) (by exact ⟨by decide, by decide⟩),
    broadcast_throttle_checkpoint_cadence.2.2.2 0 (initProgress none)
      (by exact ⟨by decide, by decide⟩)⟩

end Bot
